import Mathlib

/-!
Verification of the F2P/P2P analysis engine: a shallow embedding of the
classifier (`generate_test_report`), the validator (`validate_f2p_p2p_result`),
the runner registry (`get_runner`, `get_all_detected_runners`), the
JavaScript runners' error reporting, and the orchestrator's stage-map
aggregation, together with theorems settling the specification's claims.

Outcome maps (`Dict[str, str]` in the source) are embedded as association
lists `List (String × Status)`; the well-formedness predicate `WFMap`
states that keys are distinct, which every Python dict satisfies.
-/

/-- Per-test status, the values stored in the outcome maps
(`PASSED_STATUSES`, `FAILED_STATUSES` and the skipped value). -/
inductive Status where
  | PASSED
  | FAILED
  | SKIPPED
  | XFAIL
  | ERROR
deriving DecidableEq, Repr

/-- Membership in `PASSED_STATUSES = {"PASSED", "XFAIL"}`. -/
def isPassing : Status → Bool
  | .PASSED => true
  | .XFAIL => true
  | _ => false

/-- Membership in `FAILED_STATUSES = {"FAILED", "ERROR"}`. -/
def isFailing : Status → Bool
  | .FAILED => true
  | .ERROR => true
  | _ => false

/-- An outcome map `Dict[str, str]`, embedded as an association list. -/
abbrev StatusMap := List (String × Status)

/-- The key set of an outcome map (`dict.keys()`). -/
def mapKeys (m : StatusMap) : List String := m.map Prod.fst

/-- Key lookup (`dict.get(test)`). -/
def lookupStatus (m : StatusMap) (t : String) : Option Status :=
  (m.find? (fun p => p.1 == t)).map Prod.snd

/-- A Python dict has distinct keys. -/
def WFMap (m : StatusMap) : Prop := (mapKeys m).Nodup

/-- The set `{t for t, s in m.items() if s in PASSED_STATUSES}`, kept as a
list of keys; membership in it is the set membership of the source. -/
def passingTests (m : StatusMap) : List String :=
  (m.filter (fun p => isPassing p.2)).map Prod.fst

/-- The set `{t for t, s in m.items() if s in FAILED_STATUSES}`. -/
def failingTests (m : StatusMap) : List String :=
  (m.filter (fun p => isFailing p.2)).map Prod.fst

/-- The `has_mixed_before` test of `generate_test_report`: some value of
`tests_before` is passing and some value is failing. -/
def has_mixed_before (tests_before : StatusMap) : Bool :=
  (tests_before.any fun p => isPassing p.2) &&
  (tests_before.any fun p => isFailing p.2)

/-- The four classification lists returned by `generate_test_report`
(keys `FAIL_TO_PASS`, `PASS_TO_PASS`, `PASS_TO_FAIL`, `FAIL_TO_FAIL`). -/
structure Report where
  fail_to_pass : List String
  pass_to_pass : List String
  pass_to_fail : List String
  fail_to_fail : List String
deriving DecidableEq, Repr

/-- The reclassification append loop of `generate_test_report`: starting
from `seen = set(acc)`, each element of `xs` not yet seen is appended. -/
def appendNew : List String → List String → List String
  | acc, [] => acc
  | acc, t :: ts =>
    if acc.contains t then appendNew acc ts else appendNew (acc ++ [t]) ts

/-- Rule A branch of `generate_test_report` (taken when
`has_new_test_file or not has_mixed_before`): initial F2P and P2P from
`after` against `base`, then the two sequential reclassification passes
against `before`; the source guards each pass with
`if reclassify_to_p2p:` / `if reclassify_to_f2p:`. -/
def ruleA (tests_base tests_before tests_after : StatusMap) : Report :=
  let base_passing := passingTests tests_base
  let after_passing := passingTests tests_after
  let fail_to_pass := after_passing.filter (fun t => !base_passing.contains t)
  let pass_to_pass := after_passing.filter (fun t => base_passing.contains t)
  let before_passing := passingTests tests_before
  let reclassify_to_p2p := fail_to_pass.filter (fun t => before_passing.contains t)
  let fail_to_pass2 :=
    if reclassify_to_p2p.isEmpty then fail_to_pass
    else fail_to_pass.filter (fun t => !reclassify_to_p2p.contains t)
  let pass_to_pass2 :=
    if reclassify_to_p2p.isEmpty then pass_to_pass
    else appendNew pass_to_pass reclassify_to_p2p
  let before_failing := failingTests tests_before
  let reclassify_to_f2p := pass_to_pass2.filter (fun t => before_failing.contains t)
  let pass_to_pass3 :=
    if reclassify_to_f2p.isEmpty then pass_to_pass2
    else pass_to_pass2.filter (fun t => !reclassify_to_f2p.contains t)
  let fail_to_pass3 :=
    if reclassify_to_f2p.isEmpty then fail_to_pass2
    else appendNew fail_to_pass2 reclassify_to_f2p
  ⟨fail_to_pass3, pass_to_pass3, [], []⟩

/-- Lift of `status in PASSED_STATUSES` to `dict.get` results
(`None in PASSED_STATUSES` is false). -/
def optPassing : Option Status → Bool
  | some s => isPassing s
  | none => false

/-- Lift of `status in FAILED_STATUSES` to `dict.get` results. -/
def optFailing : Option Status → Bool
  | some s => isFailing s
  | none => false

/-- One iteration of Rule B's loop body: classify `test` by its
`(before, after)` transition and append it to the matching list. -/
def classifyOne (tests_before tests_after : StatusMap) (r : Report) (test : String) : Report :=
  let status_before := lookupStatus tests_before test
  let status_after := lookupStatus tests_after test
  if optFailing status_before && optPassing status_after then
    { r with fail_to_pass := r.fail_to_pass ++ [test] }
  else if optPassing status_before && optPassing status_after then
    { r with pass_to_pass := r.pass_to_pass ++ [test] }
  else if optPassing status_before && optFailing status_after then
    { r with pass_to_fail := r.pass_to_fail ++ [test] }
  else if optFailing status_before && optFailing status_after then
    { r with fail_to_fail := r.fail_to_fail ++ [test] }
  else r

/-- Rule B branch of `generate_test_report`: classify every test of
`set(tests_before.keys()) | set(tests_after.keys())` by its transition. -/
def ruleB (tests_before tests_after : StatusMap) : Report :=
  let all_tests := (mapKeys tests_before ++ mapKeys tests_after).dedup
  all_tests.foldl (classifyOne tests_before tests_after) ⟨[], [], [], []⟩

/-- `generate_test_report` from `src/analyzer.py`: Rule A when
`has_new_test_file or not has_mixed_before`, Rule B otherwise. -/
def generate_test_report (tests_base tests_before tests_after : StatusMap)
    (has_new_test_file : Bool) : Report :=
  if has_new_test_file || !has_mixed_before tests_before then
    ruleA tests_base tests_before tests_after
  else
    ruleB tests_before tests_after

/-- Python's `sorted` on a list of strings (ascending, lexicographic). -/
def sortedLex (l : List String) : List String := l.insertionSort (· ≤ ·)

/-- The four lists as stored on the analysis result by
`F2PP2PAnalyzer.analyze`: each classification list of the report, sorted. -/
def analyzeLists (tests_base tests_before tests_after : StatusMap)
    (has_new_test_file : Bool) : Report :=
  let report := generate_test_report tests_base tests_before tests_after has_new_test_file
  ⟨sortedLex report.fail_to_pass, sortedLex report.pass_to_pass,
   sortedLex report.pass_to_fail, sortedLex report.fail_to_fail⟩

/-- Rule B's per-test F2P condition (`status_before in FAILED_STATUSES and
status_after in PASSED_STATUSES`). -/
def condF2P (tests_before tests_after : StatusMap) (t : String) : Bool :=
  optFailing (lookupStatus tests_before t) && optPassing (lookupStatus tests_after t)

/-- Rule B's per-test P2P condition. -/
def condP2P (tests_before tests_after : StatusMap) (t : String) : Bool :=
  optPassing (lookupStatus tests_before t) && optPassing (lookupStatus tests_after t)

/-- Rule B's per-test P2F condition. -/
def condP2F (tests_before tests_after : StatusMap) (t : String) : Bool :=
  optPassing (lookupStatus tests_before t) && optFailing (lookupStatus tests_after t)

/-- Rule B's per-test F2F condition. -/
def condF2F (tests_before tests_after : StatusMap) (t : String) : Bool :=
  optFailing (lookupStatus tests_before t) && optFailing (lookupStatus tests_after t)

/-- The claim's description of Rule A's final F2P set: initially
`P(after) \ P(base)`, then the pass moving `F2P ∩ P(before)` to P2P, then
the pass moving `P2P ∩ F(before)` to F2P, run sequentially in that order.
A test ends in F2P exactly when it passes in `after` and either passes in
neither `base` nor `before`, or fails in `before`. -/
def ruleA_f2p_spec (tests_base tests_before tests_after : StatusMap) (t : String) : Prop :=
  t ∈ passingTests tests_after ∧
    (¬(t ∈ passingTests tests_base ∨ t ∈ passingTests tests_before) ∨
      t ∈ failingTests tests_before)

/-- The claim's description of Rule A's final P2P set after the two
sequential passes: a test ends in P2P exactly when it passes in `after`,
passes in `base` or in `before`, and does not fail in `before`. -/
def ruleA_p2p_spec (tests_base tests_before tests_after : StatusMap) (t : String) : Prop :=
  t ∈ passingTests tests_after ∧
    (t ∈ passingTests tests_base ∨ t ∈ passingTests tests_before) ∧
    t ∉ failingTests tests_before

/-- ASCII decimal digit, the `\d` class of the source's patterns. -/
def isDigitChar (c : Char) : Bool := c.isDigit

/-- Lower-case hex digit `[a-f0-9]`; inputs are lower-cased first, which
models the source's `re.IGNORECASE`. -/
def isHexChar (c : Char) : Bool := c.isDigit || ('a' ≤ c && c ≤ 'f')

/-- ASCII whitespace, the `\s` class of the duration pattern. -/
def isSpaceChar (c : Char) : Bool :=
  c == ' ' || c == '\t' || c == '\n' || c == '\r' || c == '\x0b' || c == '\x0c'

/-- Character equality as a class test. -/
def charIs (a : Char) : Char → Bool := fun c => c == a

/-- Does the list start with `n` characters satisfying `p`
(a `p{n}` regex piece)? -/
def hasPrefixRun (p : Char → Bool) : Nat → List Char → Bool
  | 0, _ => true
  | _ + 1, [] => false
  | n + 1, c :: cs => p c && hasPrefixRun p n cs

/-- Match a fixed-shape pattern: one class test per character. -/
def matchShape : List (Char → Bool) → List Char → Bool
  | [], _ => true
  | _ :: _, [] => false
  | p :: ps, c :: cs => p c && matchShape ps cs

/-- Match a literal character sequence, returning the rest on success. -/
def matchLit : List Char → List Char → Option (List Char)
  | [], cs => some cs
  | _ :: _, [] => none
  | l :: ls, c :: cs => if c == l then matchLit ls cs else none

/-- Drop the maximal run of characters satisfying `p` (greedy `p*`). -/
def dropRun (p : Char → Bool) : List Char → List Char
  | [] => []
  | c :: cs => if p c then dropRun p cs else c :: cs

/-- Match `\d+(\.\d+)?` greedily, returning the rest; for the source's
patterns (always followed by a non-digit, non-dot requirement) the greedy
match succeeds exactly when some match does. -/
def matchNumber : List Char → Option (List Char)
  | [] => none
  | c :: cs =>
    if isDigitChar c then
      match dropRun isDigitChar cs with
      | '.' :: c2 :: r3 =>
        if isDigitChar c2 then some (dropRun isDigitChar r3)
        else some ('.' :: c2 :: r3)
      | rest => some rest
    else none

/-- Shape of `\d{4}-\d{2}-\d{2}T\d{2}:\d{2}:\d{2}` (the `T` lower-cased
because inputs are lower-cased). -/
def isoShape : List (Char → Bool) :=
  [isDigitChar, isDigitChar, isDigitChar, isDigitChar, charIs '-',
   isDigitChar, isDigitChar, charIs '-', isDigitChar, isDigitChar, charIs 't',
   isDigitChar, isDigitChar, charIs ':', isDigitChar, isDigitChar, charIs ':',
   isDigitChar, isDigitChar]

/-- Shape of the UUID pattern
`[a-f0-9]{8}-[a-f0-9]{4}-[a-f0-9]{4}-[a-f0-9]{4}-[a-f0-9]{12}`. -/
def uuidShape : List (Char → Bool) :=
  List.replicate 8 isHexChar ++ [charIs '-'] ++ List.replicate 4 isHexChar ++
  [charIs '-'] ++ List.replicate 4 isHexChar ++ [charIs '-'] ++
  List.replicate 4 isHexChar ++ [charIs '-'] ++ List.replicate 12 isHexChar

/-- Match `built in \d+(\.\d+)?s` at the start of the list. -/
def builtInAt (cs : List Char) : Bool :=
  match matchLit "built in ".data cs with
  | none => false
  | some r1 =>
    match matchNumber r1 with
    | none => false
    | some ('s' :: _) => true
    | some _ => false

/-- Match `in \d+(\.\d+)?\s*(ms|s|sec|seconds)` at the start of the list. -/
def durationAt (cs : List Char) : Bool :=
  match matchLit "in ".data cs with
  | none => false
  | some r1 =>
    match matchNumber r1 with
    | none => false
    | some r2 =>
      let r3 := dropRun isSpaceChar r2
      (matchLit "ms".data r3).isSome || (matchLit "s".data r3).isSome ||
      (matchLit "sec".data r3).isSome || (matchLit "seconds".data r3).isSome

/-- Match `0x[a-f0-9]{8,}` at the start of the list. -/
def hexAddrAt : List Char → Bool
  | '0' :: 'x' :: rest => hasPrefixRun isHexChar 8 rest
  | _ => false

/-- `re.search` semantics: does `f` match at some position? -/
def searchAny (f : List Char → Bool) : List Char → Bool
  | [] => f []
  | c :: cs => f (c :: cs) || searchAny f cs

/-- `_has_unstable_pattern` from `src/analyzer.py`: the six
`UNSTABLE_PATTERNS` regexes searched case-insensitively (modelled by
lower-casing the name and matching lower-case patterns; character classes
are the ASCII core of Python's). -/
def has_unstable_pattern (name : String) : Bool :=
  let cs := name.data.map Char.toLower
  searchAny (hasPrefixRun isDigitChar 10) cs ||
  searchAny (matchShape isoShape) cs ||
  searchAny builtInAt cs ||
  searchAny durationAt cs ||
  searchAny (matchShape uuidShape) cs ||
  searchAny hexAddrAt cs

/-- Case-insensitive comparison with a lower-case literal, modelling
`language.lower() == lit`. -/
def lowerEq (s lit : String) : Bool := s.data.map Char.toLower == lit.data

/-- The validator's language gate:
`language and language.lower() in ('javascript', 'typescript', 'c++', 'cpp')`
(a `None` or empty language never enters the gate). -/
def langGate : Option String → Bool
  | none => false
  | some l =>
    lowerEq l "javascript" || lowerEq l "typescript" || lowerEq l "c++" ||
    lowerEq l "cpp"

/-- The body of the validator's last check for one test: reject when the
test ran in fewer than 3 stages unless it is absent from `tests_base`
(`in_new_test_file`), or is absent from all three maps. -/
def notInAllStages (tests_base tests_before tests_after : StatusMap)
    (test : String) : Bool :=
  let inBase := (mapKeys tests_base).contains test
  let inBefore := (mapKeys tests_before).contains test
  let inAfter := (mapKeys tests_after).contains test
  if !inBase && !inBefore && !inAfter then true
  else if ((if inBase then 1 else 0) + (if inBefore then 1 else 0) +
      (if inAfter then 1 else 0) : Nat) < 3 then
    let in_new_test_file := !inBase
    !in_new_test_file
  else false

/-- `validate_f2p_p2p_result` from `src/analyzer.py`: the ordered chain of
rejection checks, returning the first rejection code or `none`. -/
def validate_f2p_p2p_result (f2p_tests p2p_tests : List String)
    (tests_base tests_before tests_after : StatusMap)
    (language : Option String) : Option String :=
  if f2p_tests.isEmpty then some "empty_f2p"
  else if p2p_tests.isEmpty then some "empty_p2p"
  else
    let all_f2p_p2p := f2p_tests ++ p2p_tests
    if langGate language && all_f2p_p2p.any (fun t => has_unstable_pattern t) then
      some "unstable_test_name"
    else if all_f2p_p2p.dedup.length ≠ all_f2p_p2p.length then
      some "duplicate_test_names"
    else if p2p_tests.any (fun t => (failingTests tests_base).contains t) then
      some "failed_base_in_p2p"
    else if all_f2p_p2p.any (fun t =>
        (failingTests tests_after).contains t ||
        !(mapKeys tests_after).contains t) then
      some "failed_after_in_f2p_p2p"
    else if p2p_tests.any (fun t =>
        !(mapKeys tests_base).contains t &&
        !(passingTests tests_before).contains t) then
      some "p2p_missing_base_not_passing_before"
    else if all_f2p_p2p.any (fun t =>
        notInAllStages tests_base tests_before tests_after t) then
      some "test_not_in_all_stages"
    else none

/-- Lookup of `LANGUAGE_RUNNERS[language_hint]` in `get_runner`
(an absent or `None` hint yields the empty candidate seed). -/
def hintRunners {α : Type} (language_runners : List (String × List α))
    (hint : Option String) : List α :=
  match hint with
  | none => []
  | some h => ((language_runners.find? (fun p => p.1 == h)).map Prod.snd).getD []

/-- The candidate list of `get_runner`:
`candidates + [r for r in ALL_RUNNERS if r not in candidates]`. -/
def candidateRunners {α : Type} [BEq α] (hint_candidates all_runners : List α) :
    List α :=
  hint_candidates ++ all_runners.filter (fun r => !hint_candidates.contains r)

/-- One step of `get_runner`'s loop: keep the best `(runner, score)` so
far, replacing it when the new score is strictly greater. -/
def detectFold {α : Type} (detect : α → Nat) (acc : Option α × Nat) (r : α) :
    Option α × Nat :=
  if detect r > acc.2 then (some r, detect r) else acc

/-- `get_runner` from `src/registry.py`: fold the detector over the
candidate list starting from `(None, 0)` and return the best runner when
its score reaches the floor of 30. -/
def get_runner {α : Type} [BEq α] (detect : α → Nat)
    (language_runners : List (String × List α)) (all_runners : List α)
    (hint : Option String) : Option α :=
  let candidates := candidateRunners (hintRunners language_runners hint) all_runners
  match candidates.foldl (detectFold detect) (none, 0) with
  | (some r, s) => if 30 ≤ s then some r else none
  | (none, _) => none

/-- The maximum detection score over a candidate list (with 0 for an empty
list, matching the loop's initial `best_score = 0`). -/
def maxScore {α : Type} (detect : α → Nat) (cs : List α) : Nat :=
  cs.foldl (fun m r => max m (detect r)) 0

/-- Descending order on `(runner, score)` pairs, the `sorted(...,
key=score, reverse=True)` order. -/
def scoreGe {α : Type} (a b : α × Nat) : Prop := b.2 ≤ a.2

instance {α : Type} : DecidableRel (@scoreGe α) := fun a b => Nat.decLe b.2 a.2

instance {α : Type} : IsTotal (α × Nat) scoreGe := ⟨fun a b => Nat.le_total b.2 a.2⟩

instance {α : Type} : IsTrans (α × Nat) scoreGe :=
  ⟨fun _ _ _ h1 h2 => Nat.le_trans h2 h1⟩

/-- `get_all_detected_runners` from `src/registry.py`: every runner with
a strictly positive score, sorted by score descending. -/
def get_all_detected_runners {α : Type} (detect : α → Nat)
    (all_runners : List α) : List (α × Nat) :=
  let results := all_runners.filterMap
    (fun r => if detect r > 0 then some (r, detect r) else none)
  results.insertionSort scoreGe

/-- The fields of `TestResult` from `src/base.py` that the run-result
claims concern. -/
structure TestResultR where
  passed : List String
  failed : List String
  skipped : List String
  error : Option String
deriving DecidableEq, Repr

/-- Tail of `NodeTestRunner.run_tests` in `src/javascript.py`: after
`_parse_tap_output` yields `(passed, failed, skipped)`, the error field is
set iff `returncode != 0 and not failed`. -/
def nodeTest_run_result (returncode : Int)
    (passed failed skipped : List String) : TestResultR :=
  if (returncode != 0) && failed.isEmpty then
    ⟨passed, failed, skipped,
     some ("node --test failed with exit code " ++ toString returncode)⟩
  else ⟨passed, failed, skipped, none⟩

/-- Outcome of `JestRunner.run_tests`'s parse chain: the JSON output file
parsed by `parse_jest_json`, the stdout JSON parsed by
`_parse_jest_stdout` — neither of which ever sets an error — or neither
parse succeeded. -/
inductive JestParse where
  | fromFile (passed failed skipped : List String)
  | fromStdout (passed failed skipped : List String)
  | noParse
deriving DecidableEq, Repr

/-- Tail of `JestRunner.run_tests` in `src/javascript.py`: a parsed
result is returned with no error; with no parse, an empty result whose
error is set iff `returncode != 0`. -/
def jest_run_result (outcome : JestParse) (returncode : Int) : TestResultR :=
  match outcome with
  | .fromFile passed failed skipped => ⟨passed, failed, skipped, none⟩
  | .fromStdout passed failed skipped => ⟨passed, failed, skipped, none⟩
  | .noParse =>
    if returncode != 0 then
      ⟨[], [], [], some ("Jest failed with exit code " ++ toString returncode)⟩
    else ⟨[], [], [], none⟩

/-- A dict assignment `all_tests[k] = v` on the association-list model:
replace the value when the key exists, append otherwise. -/
def insertStatus (m : StatusMap) (k : String) (v : Status) : StatusMap :=
  if (mapKeys m).contains k then
    m.map (fun p => if p.1 == k then (k, v) else p)
  else m ++ [(k, v)]

/-- Per-package per-stage aggregation of `F2PP2PAnalyzer.analyze`: each
passed test is written as PASSED under its package-prefixed name, then
each failed test as FAILED; skipped tests are never written. -/
def addRunResult (m : StatusMap) (pre : String) (r : TestResultR) : StatusMap :=
  let m1 := r.passed.foldl
    (fun acc t => insertStatus acc (pre ++ t) Status.PASSED) m
  r.failed.foldl (fun acc t => insertStatus acc (pre ++ t) Status.FAILED) m1

/-- One stage map (`all_tests_base` / `all_tests_before` /
`all_tests_after`) aggregated over the packages of the analysis, each
with its identifier prefix. -/
def aggregateStage (pkgs : List (String × TestResultR)) : StatusMap :=
  pkgs.foldl (fun acc pr => addRunResult acc pr.1 pr.2) []

example :
    generate_test_report
      [("T1", .PASSED), ("T2", .PASSED)]
      [("T1", .PASSED), ("T2", .PASSED), ("T_new", .FAILED)]
      [("T1", .PASSED), ("T2", .PASSED), ("T_new", .PASSED)]
      true
      = ⟨["T_new"], ["T1", "T2"], [], []⟩ := by decide

example :
    generate_test_report
      [("T1", .FAILED), ("T2", .PASSED)]
      [("T1", .FAILED), ("T2", .PASSED)]
      [("T1", .PASSED), ("T2", .PASSED)]
      false
      = ⟨["T1"], ["T2"], [], []⟩ := by decide

theorem contains_iff_mem (l : List String) (t : String) : l.contains t = true ↔ t ∈ l := by
  simp

theorem mem_passingTests (m : StatusMap) (t : String) :
    t ∈ passingTests m ↔ ∃ s, (t, s) ∈ m ∧ isPassing s = true := by
  simp only [passingTests, List.mem_map, List.mem_filter]
  constructor
  · rintro ⟨⟨t', s⟩, ⟨hm, hp⟩, rfl⟩
    exact ⟨s, hm, hp⟩
  · rintro ⟨s, hm, hp⟩
    exact ⟨(t, s), ⟨hm, hp⟩, rfl⟩

theorem mem_failingTests (m : StatusMap) (t : String) :
    t ∈ failingTests m ↔ ∃ s, (t, s) ∈ m ∧ isFailing s = true := by
  simp only [failingTests, List.mem_map, List.mem_filter]
  constructor
  · rintro ⟨⟨t', s⟩, ⟨hm, hp⟩, rfl⟩
    exact ⟨s, hm, hp⟩
  · rintro ⟨s, hm, hp⟩
    exact ⟨(t, s), ⟨hm, hp⟩, rfl⟩

theorem mem_appendNew (acc xs : List String) (t : String) :
    t ∈ appendNew acc xs ↔ t ∈ acc ∨ t ∈ xs := by
  induction xs generalizing acc with
  | nil => simp [appendNew]
  | cons x xs ih =>
    simp only [appendNew]
    by_cases h : acc.contains x = true
    · rw [if_pos h, ih]
      have hx : x ∈ acc := (contains_iff_mem acc x).mp h
      constructor
      · rintro (h' | h')
        · exact Or.inl h'
        · exact Or.inr (List.mem_cons_of_mem _ h')
      · rintro (h' | h')
        · exact Or.inl h'
        · rcases List.mem_cons.mp h' with rfl | h'
          · exact Or.inl hx
          · exact Or.inr h'
    · rw [if_neg h, ih]
      simp only [List.mem_append, List.mem_singleton, List.mem_cons]
      tauto

theorem appendNew_nodup (acc xs : List String) (h : acc.Nodup) :
    (appendNew acc xs).Nodup := by
  induction xs generalizing acc with
  | nil => simpa [appendNew]
  | cons x xs ih =>
    simp only [appendNew]
    by_cases hc : acc.contains x = true
    · rw [if_pos hc]
      exact ih acc h
    · rw [if_neg hc]
      refine ih _ ?_
      have hx : x ∉ acc := fun hm => hc ((contains_iff_mem acc x).mpr hm)
      simp [List.nodup_append, h, hx]

theorem mem_pass_remove (l : List String) (c : String → Bool) (t : String) :
    t ∈ (if (l.filter c).isEmpty then l
          else l.filter (fun x => !(l.filter c).contains x)) ↔
      t ∈ l ∧ ¬ c t = true := by
  by_cases h : (l.filter c).isEmpty = true
  · rw [if_pos h]
    have hnil : l.filter c = [] := by simpa [List.isEmpty_iff] using h
    have hall : ∀ x ∈ l, ¬ c x = true := by
      intro x hx hcx
      have : x ∈ l.filter c := List.mem_filter.mpr ⟨hx, hcx⟩
      simp [hnil] at this
    exact ⟨fun ht => ⟨ht, hall t ht⟩, fun h' => h'.1⟩
  · rw [if_neg h]
    simp [List.mem_filter]
    tauto

theorem mem_pass_add (acc l : List String) (c : String → Bool) (t : String) :
    t ∈ (if (l.filter c).isEmpty then acc else appendNew acc (l.filter c)) ↔
      t ∈ acc ∨ (t ∈ l ∧ c t = true) := by
  by_cases h : (l.filter c).isEmpty = true
  · rw [if_pos h]
    have hnil : l.filter c = [] := by simpa [List.isEmpty_iff] using h
    constructor
    · exact Or.inl
    · rintro (h' | ⟨hl, hc⟩)
      · exact h'
      · have : t ∈ l.filter c := List.mem_filter.mpr ⟨hl, hc⟩
        simp [hnil] at this
  · rw [if_neg h, mem_appendNew]
    simp [List.mem_filter]

theorem ruleA_mem_characterization (tests_base tests_before tests_after : StatusMap)
    (t : String) :
    (t ∈ (ruleA tests_base tests_before tests_after).fail_to_pass ↔
      ruleA_f2p_spec tests_base tests_before tests_after t) ∧
    (t ∈ (ruleA tests_base tests_before tests_after).pass_to_pass ↔
      ruleA_p2p_spec tests_base tests_before tests_after t) := by
  simp only [ruleA]
  constructor
  · rw [mem_pass_add, mem_pass_remove, mem_pass_add]
    simp only [ruleA_f2p_spec]
    simp [List.mem_filter]
    tauto
  · rw [mem_pass_remove, mem_pass_add]
    simp only [ruleA_p2p_spec]
    simp [List.mem_filter]
    tauto

/-- C1: whenever `has_new_test_file` is true or `tests_before` is not
mixed, `generate_test_report` computes the initial `F2P = P(after) \ P(base)`
and `P2P = P(after) ∩ P(base)` and then runs the two sequential
reclassification passes (first `F2P ∩ P(before)` moves to P2P, then
`P2P ∩ F(before)` moves to F2P): the resulting F2P and P2P memberships are
exactly the denotations `ruleA_f2p_spec` / `ruleA_p2p_spec` of that
two-pass algorithm. -/
theorem c1_ruleA_two_pass (tests_base tests_before tests_after : StatusMap)
    (has_new_test_file : Bool)
    (h : has_new_test_file = true ∨ has_mixed_before tests_before = false)
    (t : String) :
    (t ∈ (generate_test_report tests_base tests_before tests_after
        has_new_test_file).fail_to_pass ↔
      ruleA_f2p_spec tests_base tests_before tests_after t) ∧
    (t ∈ (generate_test_report tests_base tests_before tests_after
        has_new_test_file).pass_to_pass ↔
      ruleA_p2p_spec tests_base tests_before tests_after t) := by
  have hguard : (has_new_test_file || !has_mixed_before tests_before) = true := by
    rcases h with h | h <;> simp [h]
  rw [generate_test_report, if_pos hguard]
  exact ruleA_mem_characterization tests_base tests_before tests_after t

theorem c1_ruleA_two_pass_witness :
    (true = true ∨ has_mixed_before
        [("B", Status.PASSED), ("A", Status.FAILED)] = false) ∧
    (("A" ∈ (generate_test_report [("A", Status.PASSED)]
        [("B", Status.PASSED), ("A", Status.FAILED)]
        [("A", Status.PASSED), ("B", Status.PASSED), ("C", Status.PASSED)]
        true).fail_to_pass ↔
      ruleA_f2p_spec [("A", Status.PASSED)]
        [("B", Status.PASSED), ("A", Status.FAILED)]
        [("A", Status.PASSED), ("B", Status.PASSED), ("C", Status.PASSED)] "A") ∧
     ("A" ∈ (generate_test_report [("A", Status.PASSED)]
        [("B", Status.PASSED), ("A", Status.FAILED)]
        [("A", Status.PASSED), ("B", Status.PASSED), ("C", Status.PASSED)]
        true).pass_to_pass ↔
      ruleA_p2p_spec [("A", Status.PASSED)]
        [("B", Status.PASSED), ("A", Status.FAILED)]
        [("A", Status.PASSED), ("B", Status.PASSED), ("C", Status.PASSED)] "A")) :=
  ⟨Or.inl rfl,
   c1_ruleA_two_pass [("A", Status.PASSED)]
     [("B", Status.PASSED), ("A", Status.FAILED)]
     [("A", Status.PASSED), ("B", Status.PASSED), ("C", Status.PASSED)]
     true (Or.inl rfl) "A"⟩

/-- C9: whenever Rule A applies (`has_new_test_file` is true or
`tests_before` is not mixed), the `PASS_TO_FAIL` and `FAIL_TO_FAIL` lists
of `generate_test_report` are empty. -/
theorem c9_ruleA_no_p2f_f2f (tests_base tests_before tests_after : StatusMap)
    (has_new_test_file : Bool)
    (h : has_new_test_file = true ∨ has_mixed_before tests_before = false) :
    (generate_test_report tests_base tests_before tests_after
        has_new_test_file).pass_to_fail = [] ∧
    (generate_test_report tests_base tests_before tests_after
        has_new_test_file).fail_to_fail = [] := by
  have hguard : (has_new_test_file || !has_mixed_before tests_before) = true := by
    rcases h with h | h <;> simp [h]
  rw [generate_test_report, if_pos hguard]
  simp [ruleA]

theorem c9_ruleA_no_p2f_f2f_witness :
    (false = true ∨ has_mixed_before [("T1", Status.PASSED)] = false) ∧
    ((generate_test_report [("T1", Status.FAILED)] [("T1", Status.PASSED)]
        [("T1", Status.PASSED)] false).pass_to_fail = [] ∧
     (generate_test_report [("T1", Status.FAILED)] [("T1", Status.PASSED)]
        [("T1", Status.PASSED)] false).fail_to_fail = []) :=
  ⟨Or.inr (by decide),
   c9_ruleA_no_p2f_f2f [("T1", Status.FAILED)] [("T1", Status.PASSED)]
     [("T1", Status.PASSED)] false (Or.inr (by decide))⟩

theorem optPassing_not_failing (o : Option Status) :
    optPassing o = true → optFailing o = false := by
  rcases o with _ | s
  · decide
  · cases s <;> decide

theorem optFailing_not_passing (o : Option Status) :
    optFailing o = true → optPassing o = false := by
  rcases o with _ | s
  · decide
  · cases s <;> decide

theorem classifyOne_foldl (tests_before tests_after : StatusMap)
    (ts : List String) (r : Report) :
    ts.foldl (classifyOne tests_before tests_after) r =
      ⟨r.fail_to_pass ++ ts.filter (condF2P tests_before tests_after),
       r.pass_to_pass ++ ts.filter (condP2P tests_before tests_after),
       r.pass_to_fail ++ ts.filter (condP2F tests_before tests_after),
       r.fail_to_fail ++ ts.filter (condF2F tests_before tests_after)⟩ := by
  induction ts generalizing r with
  | nil => simp
  | cons x ts ih =>
    rw [List.foldl_cons, ih]
    simp only [condF2P, condP2P, condP2F, condF2F, List.filter_cons]
    by_cases h1 : (optFailing (lookupStatus tests_before x) &&
        optPassing (lookupStatus tests_after x)) = true
    · rw [Bool.and_eq_true] at h1
      obtain ⟨hf, hp⟩ := h1
      have e1 := optFailing_not_passing _ hf
      have e2 := optPassing_not_failing _ hp
      simp [classifyOne, hf, hp, e1, e2]
    · by_cases h2 : (optPassing (lookupStatus tests_before x) &&
          optPassing (lookupStatus tests_after x)) = true
      · rw [Bool.and_eq_true] at h2
        obtain ⟨hf, hp⟩ := h2
        have e1 := optPassing_not_failing _ hf
        have e2 := optPassing_not_failing _ hp
        simp [classifyOne, h1, hf, hp, e1, e2]
      · by_cases h3 : (optPassing (lookupStatus tests_before x) &&
            optFailing (lookupStatus tests_after x)) = true
        · rw [Bool.and_eq_true] at h3
          obtain ⟨hf, hp⟩ := h3
          have e1 := optPassing_not_failing _ hf
          have e2 := optFailing_not_passing _ hp
          simp [classifyOne, h1, h2, hf, hp, e1, e2]
        · by_cases h4 : (optFailing (lookupStatus tests_before x) &&
              optFailing (lookupStatus tests_after x)) = true
          · rw [Bool.and_eq_true] at h4
            obtain ⟨hf, hp⟩ := h4
            have e1 := optFailing_not_passing _ hf
            have e2 := optFailing_not_passing _ hp
            simp [classifyOne, h1, h2, h3, hf, hp, e1, e2]
          · simp [classifyOne, h1, h2, h3, h4]

theorem lookupStatus_mem_keys (m : StatusMap) (t : String) (s : Status)
    (h : lookupStatus m t = some s) : t ∈ mapKeys m := by
  rw [lookupStatus, Option.map_eq_some'] at h
  obtain ⟨p, hfind, hsnd⟩ := h
  have hmem := List.mem_of_find?_eq_some hfind
  have hkey := List.find?_some hfind
  have hpt : p.1 = t := by simpa using hkey
  subst hpt
  exact List.mem_map.mpr ⟨p, hmem, rfl⟩

theorem lookupStatus_mem_pair (m : StatusMap) (t : String) (s : Status)
    (h : lookupStatus m t = some s) : (t, s) ∈ m := by
  rw [lookupStatus, Option.map_eq_some'] at h
  obtain ⟨p, hfind, hsnd⟩ := h
  have hmem := List.mem_of_find?_eq_some hfind
  have hkey := List.find?_some hfind
  have h1 : p.1 = t := by simpa using hkey
  have : p = (t, s) := by
    rcases p with ⟨a, b⟩
    simp only at h1 hsnd
    rw [h1, hsnd]
  rwa [this] at hmem

theorem optPassing_lookup_mem (m : StatusMap) (t : String)
    (h : optPassing (lookupStatus m t) = true) : t ∈ mapKeys m := by
  rcases hl : lookupStatus m t with _ | s
  · rw [hl] at h
    exact absurd h (by decide)
  · exact lookupStatus_mem_keys m t s hl

theorem optFailing_lookup_mem (m : StatusMap) (t : String)
    (h : optFailing (lookupStatus m t) = true) : t ∈ mapKeys m := by
  rcases hl : lookupStatus m t with _ | s
  · rw [hl] at h
    exact absurd h (by decide)
  · exact lookupStatus_mem_keys m t s hl

theorem none_or_skipped (o : Option Status)
    (h : o = none ∨ o = some Status.SKIPPED) :
    optPassing o = false ∧ optFailing o = false := by
  rcases h with h | h <;> subst h <;> exact ⟨rfl, rfl⟩

theorem ruleB_lists (tests_before tests_after : StatusMap) :
    ruleB tests_before tests_after =
      ⟨((mapKeys tests_before ++ mapKeys tests_after).dedup).filter
          (condF2P tests_before tests_after),
       ((mapKeys tests_before ++ mapKeys tests_after).dedup).filter
          (condP2P tests_before tests_after),
       ((mapKeys tests_before ++ mapKeys tests_after).dedup).filter
          (condP2F tests_before tests_after),
       ((mapKeys tests_before ++ mapKeys tests_after).dedup).filter
          (condF2F tests_before tests_after)⟩ := by
  rw [ruleB, classifyOne_foldl]
  simp

/-- C2: when `has_new_test_file` is false and `tests_before` is mixed
(Rule B), membership in each of the four lists is exactly the
corresponding `(before, after)` transition condition, and a test whose
status is missing or skipped in `tests_before` or in `tests_after`
appears in none of the four lists. -/
theorem c2_ruleB_transitions (tests_base tests_before tests_after : StatusMap)
    (has_new_test_file : Bool)
    (hn : has_new_test_file = false) (hm : has_mixed_before tests_before = true)
    (t : String) :
    (t ∈ (generate_test_report tests_base tests_before tests_after
        has_new_test_file).fail_to_pass ↔ condF2P tests_before tests_after t = true) ∧
    (t ∈ (generate_test_report tests_base tests_before tests_after
        has_new_test_file).pass_to_pass ↔ condP2P tests_before tests_after t = true) ∧
    (t ∈ (generate_test_report tests_base tests_before tests_after
        has_new_test_file).pass_to_fail ↔ condP2F tests_before tests_after t = true) ∧
    (t ∈ (generate_test_report tests_base tests_before tests_after
        has_new_test_file).fail_to_fail ↔ condF2F tests_before tests_after t = true) ∧
    ((lookupStatus tests_before t = none ∨
      lookupStatus tests_before t = some Status.SKIPPED ∨
      lookupStatus tests_after t = none ∨
      lookupStatus tests_after t = some Status.SKIPPED) →
      t ∉ (generate_test_report tests_base tests_before tests_after
            has_new_test_file).fail_to_pass ∧
      t ∉ (generate_test_report tests_base tests_before tests_after
            has_new_test_file).pass_to_pass ∧
      t ∉ (generate_test_report tests_base tests_before tests_after
            has_new_test_file).pass_to_fail ∧
      t ∉ (generate_test_report tests_base tests_before tests_after
            has_new_test_file).fail_to_fail) := by
  have hr : generate_test_report tests_base tests_before tests_after
      has_new_test_file = ruleB tests_before tests_after := by
    rw [generate_test_report, if_neg]
    simp [hn, hm]
  rw [hr, ruleB_lists]
  have hf2p : t ∈ ((mapKeys tests_before ++ mapKeys tests_after).dedup).filter
      (condF2P tests_before tests_after) ↔ condF2P tests_before tests_after t = true := by
    rw [List.mem_filter]
    refine ⟨fun h => h.2, fun h => ⟨?_, h⟩⟩
    rw [List.mem_dedup, List.mem_append]
    rw [condF2P, Bool.and_eq_true] at h
    exact Or.inl (optFailing_lookup_mem _ _ h.1)
  have hp2p : t ∈ ((mapKeys tests_before ++ mapKeys tests_after).dedup).filter
      (condP2P tests_before tests_after) ↔ condP2P tests_before tests_after t = true := by
    rw [List.mem_filter]
    refine ⟨fun h => h.2, fun h => ⟨?_, h⟩⟩
    rw [List.mem_dedup, List.mem_append]
    rw [condP2P, Bool.and_eq_true] at h
    exact Or.inl (optPassing_lookup_mem _ _ h.1)
  have hp2f : t ∈ ((mapKeys tests_before ++ mapKeys tests_after).dedup).filter
      (condP2F tests_before tests_after) ↔ condP2F tests_before tests_after t = true := by
    rw [List.mem_filter]
    refine ⟨fun h => h.2, fun h => ⟨?_, h⟩⟩
    rw [List.mem_dedup, List.mem_append]
    rw [condP2F, Bool.and_eq_true] at h
    exact Or.inl (optPassing_lookup_mem _ _ h.1)
  have hf2f : t ∈ ((mapKeys tests_before ++ mapKeys tests_after).dedup).filter
      (condF2F tests_before tests_after) ↔ condF2F tests_before tests_after t = true := by
    rw [List.mem_filter]
    refine ⟨fun h => h.2, fun h => ⟨?_, h⟩⟩
    rw [List.mem_dedup, List.mem_append]
    rw [condF2F, Bool.and_eq_true] at h
    exact Or.inl (optFailing_lookup_mem _ _ h.1)
  refine ⟨hf2p, hp2p, hp2f, hf2f, fun hmiss => ?_⟩
  have hzero : (optPassing (lookupStatus tests_before t) = false ∧
      optFailing (lookupStatus tests_before t) = false) ∨
      (optPassing (lookupStatus tests_after t) = false ∧
      optFailing (lookupStatus tests_after t) = false) := by
    rcases hmiss with h | h | h | h
    · exact Or.inl (none_or_skipped _ (Or.inl h))
    · exact Or.inl (none_or_skipped _ (Or.inr h))
    · exact Or.inr (none_or_skipped _ (Or.inl h))
    · exact Or.inr (none_or_skipped _ (Or.inr h))
  refine ⟨fun hc => ?_, fun hc => ?_, fun hc => ?_, fun hc => ?_⟩
  · have := hf2p.mp hc
    rw [condF2P, Bool.and_eq_true] at this
    rcases hzero with ⟨_, h2⟩ | ⟨h1, _⟩
    · rw [this.1] at h2
      exact Bool.noConfusion h2
    · rw [this.2] at h1
      exact Bool.noConfusion h1
  · have := hp2p.mp hc
    rw [condP2P, Bool.and_eq_true] at this
    rcases hzero with ⟨h1, _⟩ | ⟨h1, _⟩
    · rw [this.1] at h1
      exact Bool.noConfusion h1
    · rw [this.2] at h1
      exact Bool.noConfusion h1
  · have := hp2f.mp hc
    rw [condP2F, Bool.and_eq_true] at this
    rcases hzero with ⟨h1, _⟩ | ⟨_, h2⟩
    · rw [this.1] at h1
      exact Bool.noConfusion h1
    · rw [this.2] at h2
      exact Bool.noConfusion h2
  · have := hf2f.mp hc
    rw [condF2F, Bool.and_eq_true] at this
    rcases hzero with ⟨_, h2⟩ | ⟨_, h2⟩
    · rw [this.1] at h2
      exact Bool.noConfusion h2
    · rw [this.2] at h2
      exact Bool.noConfusion h2

theorem c2_ruleB_transitions_witness :
    ((false : Bool) = false ∧
     has_mixed_before [("T1", Status.FAILED), ("T2", Status.PASSED)] = true) ∧
    ("T1" ∈ (generate_test_report [("T1", Status.FAILED), ("T2", Status.PASSED)]
        [("T1", Status.FAILED), ("T2", Status.PASSED)]
        [("T1", Status.PASSED), ("T2", Status.PASSED)] false).fail_to_pass ↔
      condF2P [("T1", Status.FAILED), ("T2", Status.PASSED)]
        [("T1", Status.PASSED), ("T2", Status.PASSED)] "T1" = true) :=
  ⟨⟨rfl, by decide⟩,
   (c2_ruleB_transitions [("T1", Status.FAILED), ("T2", Status.PASSED)]
      [("T1", Status.FAILED), ("T2", Status.PASSED)]
      [("T1", Status.PASSED), ("T2", Status.PASSED)] false rfl (by decide) "T1").1⟩

/-- C4: for every input triple and flag, every test placed in F2P or in
P2P by `generate_test_report` has a passing status (PASSED or XFAIL) in
the `after` map. -/
theorem c4_f2p_p2p_passing_after (tests_base tests_before tests_after : StatusMap)
    (has_new_test_file : Bool) (t : String)
    (hmem : t ∈ (generate_test_report tests_base tests_before tests_after
        has_new_test_file).fail_to_pass ∨
      t ∈ (generate_test_report tests_base tests_before tests_after
        has_new_test_file).pass_to_pass) :
    ∃ s, (t, s) ∈ tests_after ∧ isPassing s = true := by
  by_cases hguard : (has_new_test_file || !has_mixed_before tests_before) = true
  · rw [generate_test_report, if_pos hguard] at hmem
    have hchar := ruleA_mem_characterization tests_base tests_before tests_after t
    have hAP : t ∈ passingTests tests_after := by
      rcases hmem with h | h
      · have hh := hchar.1.mp h
        rw [ruleA_f2p_spec] at hh
        exact hh.1
      · have hh := hchar.2.mp h
        rw [ruleA_p2p_spec] at hh
        exact hh.1
    exact (mem_passingTests tests_after t).mp hAP
  · rw [generate_test_report, if_neg hguard, ruleB_lists] at hmem
    have hopt : optPassing (lookupStatus tests_after t) = true := by
      rcases hmem with h | h
      · have := (List.mem_filter.mp h).2
        rw [condF2P, Bool.and_eq_true] at this
        exact this.2
      · have := (List.mem_filter.mp h).2
        rw [condP2P, Bool.and_eq_true] at this
        exact this.2
    rcases hl : lookupStatus tests_after t with _ | s
    · rw [hl] at hopt
      exact absurd hopt (by decide)
    · rw [hl] at hopt
      exact ⟨s, lookupStatus_mem_pair tests_after t s hl, hopt⟩

theorem c4_f2p_p2p_passing_after_witness :
    ("T_new" ∈ (generate_test_report
        [("T1", Status.PASSED)]
        [("T1", Status.PASSED), ("T_new", Status.FAILED)]
        [("T1", Status.PASSED), ("T_new", Status.PASSED)] true).fail_to_pass ∨
     "T_new" ∈ (generate_test_report
        [("T1", Status.PASSED)]
        [("T1", Status.PASSED), ("T_new", Status.FAILED)]
        [("T1", Status.PASSED), ("T_new", Status.PASSED)] true).pass_to_pass) ∧
    (∃ s, ("T_new", s) ∈
        ([("T1", Status.PASSED), ("T_new", Status.PASSED)] : StatusMap) ∧
      isPassing s = true) :=
  ⟨Or.inl (by decide),
   c4_f2p_p2p_passing_after [("T1", Status.PASSED)]
     [("T1", Status.PASSED), ("T_new", Status.FAILED)]
     [("T1", Status.PASSED), ("T_new", Status.PASSED)] true "T_new"
     (Or.inl (by decide))⟩

theorem passingTests_nodup (m : StatusMap) (h : WFMap m) :
    (passingTests m).Nodup := by
  rw [WFMap, mapKeys] at h
  rw [passingTests]
  exact h.sublist (List.Sublist.map Prod.fst (List.filter_sublist m))

theorem pass_remove_nodup (l : List String) (c : String → Bool) (h : l.Nodup) :
    (if (l.filter c).isEmpty then l
      else l.filter (fun x => !(l.filter c).contains x)).Nodup := by
  by_cases he : (l.filter c).isEmpty = true
  · rwa [if_pos he]
  · rw [if_neg he]
    exact h.filter _

theorem pass_add_nodup (acc l : List String) (c : String → Bool) (h : acc.Nodup) :
    (if (l.filter c).isEmpty then acc else appendNew acc (l.filter c)).Nodup := by
  by_cases he : (l.filter c).isEmpty = true
  · rwa [if_pos he]
  · rw [if_neg he]
    exact appendNew_nodup _ _ h

theorem ruleA_nodup (tests_base tests_before tests_after : StatusMap)
    (h : (passingTests tests_after).Nodup) :
    (ruleA tests_base tests_before tests_after).fail_to_pass.Nodup ∧
    (ruleA tests_base tests_before tests_after).pass_to_pass.Nodup := by
  simp only [ruleA]
  constructor
  · exact pass_add_nodup _ _ _ (pass_remove_nodup _ _ (h.filter _))
  · exact pass_remove_nodup _ _ (pass_add_nodup _ _ _ (h.filter _))

theorem conds_pairwise_exclusive (tests_before tests_after : StatusMap) (t : String) :
    (¬(condF2P tests_before tests_after t = true ∧ condP2P tests_before tests_after t = true)) ∧
    (¬(condF2P tests_before tests_after t = true ∧ condP2F tests_before tests_after t = true)) ∧
    (¬(condF2P tests_before tests_after t = true ∧ condF2F tests_before tests_after t = true)) ∧
    (¬(condP2P tests_before tests_after t = true ∧ condP2F tests_before tests_after t = true)) ∧
    (¬(condP2P tests_before tests_after t = true ∧ condF2F tests_before tests_after t = true)) ∧
    (¬(condP2F tests_before tests_after t = true ∧ condF2F tests_before tests_after t = true)) := by
  simp only [condF2P, condP2P, condP2F, condF2F, Bool.and_eq_true]
  have hb1 := optPassing_not_failing (lookupStatus tests_before t)
  have hb2 := optFailing_not_passing (lookupStatus tests_before t)
  have ha1 := optPassing_not_failing (lookupStatus tests_after t)
  have ha2 := optFailing_not_passing (lookupStatus tests_after t)
  refine ⟨?_, ?_, ?_, ?_, ?_, ?_⟩ <;> rintro ⟨⟨x1, x2⟩, ⟨y1, y2⟩⟩
  · rw [hb2 x1] at y1
    exact Bool.noConfusion y1
  · rw [hb2 x1] at y1
    exact Bool.noConfusion y1
  · rw [ha1 x2] at y2
    exact Bool.noConfusion y2
  · rw [ha1 x2] at y2
    exact Bool.noConfusion y2
  · rw [hb1 x1] at y1
    exact Bool.noConfusion y1
  · rw [hb1 x1] at y1
    exact Bool.noConfusion y1

theorem sortedLex_sorted (l : List String) : (sortedLex l).Sorted (· ≤ ·) :=
  List.sorted_insertionSort _ l

theorem sortedLex_nodup (l : List String) (h : l.Nodup) : (sortedLex l).Nodup :=
  ((List.perm_insertionSort _ l).nodup_iff).mpr h

theorem ruleB_nodup (tests_before tests_after : StatusMap) :
    (ruleB tests_before tests_after).fail_to_pass.Nodup ∧
    (ruleB tests_before tests_after).pass_to_pass.Nodup ∧
    (ruleB tests_before tests_after).pass_to_fail.Nodup ∧
    (ruleB tests_before tests_after).fail_to_fail.Nodup := by
  rw [ruleB_lists]
  exact ⟨(List.nodup_dedup _).filter _, (List.nodup_dedup _).filter _,
    (List.nodup_dedup _).filter _, (List.nodup_dedup _).filter _⟩

/-- C5: under Rule B the four classification lists are pairwise disjoint;
under Rule A the F2P and P2P lists are disjoint even after both
reclassification passes; and the four lists stored on the analysis result
(each list of the report sorted by `analyze`) are sorted lexicographically
and contain no duplicates. -/
theorem c5_disjoint_sorted_nodup (tests_base tests_before tests_after : StatusMap)
    (has_new_test_file : Bool) (hWF : WFMap tests_after) :
    ((has_new_test_file = false ∧ has_mixed_before tests_before = true) →
      (List.Disjoint
        (generate_test_report tests_base tests_before tests_after has_new_test_file).fail_to_pass
        (generate_test_report tests_base tests_before tests_after has_new_test_file).pass_to_pass ∧
       List.Disjoint
        (generate_test_report tests_base tests_before tests_after has_new_test_file).fail_to_pass
        (generate_test_report tests_base tests_before tests_after has_new_test_file).pass_to_fail ∧
       List.Disjoint
        (generate_test_report tests_base tests_before tests_after has_new_test_file).fail_to_pass
        (generate_test_report tests_base tests_before tests_after has_new_test_file).fail_to_fail ∧
       List.Disjoint
        (generate_test_report tests_base tests_before tests_after has_new_test_file).pass_to_pass
        (generate_test_report tests_base tests_before tests_after has_new_test_file).pass_to_fail ∧
       List.Disjoint
        (generate_test_report tests_base tests_before tests_after has_new_test_file).pass_to_pass
        (generate_test_report tests_base tests_before tests_after has_new_test_file).fail_to_fail ∧
       List.Disjoint
        (generate_test_report tests_base tests_before tests_after has_new_test_file).pass_to_fail
        (generate_test_report tests_base tests_before tests_after has_new_test_file).fail_to_fail)) ∧
    ((has_new_test_file = true ∨ has_mixed_before tests_before = false) →
      List.Disjoint
        (generate_test_report tests_base tests_before tests_after has_new_test_file).fail_to_pass
        (generate_test_report tests_base tests_before tests_after has_new_test_file).pass_to_pass) ∧
    ((analyzeLists tests_base tests_before tests_after has_new_test_file).fail_to_pass.Sorted (· ≤ ·) ∧
     (analyzeLists tests_base tests_before tests_after has_new_test_file).pass_to_pass.Sorted (· ≤ ·) ∧
     (analyzeLists tests_base tests_before tests_after has_new_test_file).pass_to_fail.Sorted (· ≤ ·) ∧
     (analyzeLists tests_base tests_before tests_after has_new_test_file).fail_to_fail.Sorted (· ≤ ·)) ∧
    ((analyzeLists tests_base tests_before tests_after has_new_test_file).fail_to_pass.Nodup ∧
     (analyzeLists tests_base tests_before tests_after has_new_test_file).pass_to_pass.Nodup ∧
     (analyzeLists tests_base tests_before tests_after has_new_test_file).pass_to_fail.Nodup ∧
     (analyzeLists tests_base tests_before tests_after has_new_test_file).fail_to_fail.Nodup) := by
  refine ⟨?_, ?_, ?_, ?_⟩
  · rintro ⟨hn, hm⟩
    have hr : generate_test_report tests_base tests_before tests_after
        has_new_test_file = ruleB tests_before tests_after := by
      rw [generate_test_report, if_neg]
      simp [hn, hm]
    rw [hr, ruleB_lists]
    have hex := fun t => conds_pairwise_exclusive tests_before tests_after t
    refine ⟨?_, ?_, ?_, ?_, ?_, ?_⟩ <;>
      intro a h1 h2 <;>
      have c1 := (List.mem_filter.mp h1).2 <;>
      have c2 := (List.mem_filter.mp h2).2
    · exact (hex a).1 ⟨c1, c2⟩
    · exact (hex a).2.1 ⟨c1, c2⟩
    · exact (hex a).2.2.1 ⟨c1, c2⟩
    · exact (hex a).2.2.2.1 ⟨c1, c2⟩
    · exact (hex a).2.2.2.2.1 ⟨c1, c2⟩
    · exact (hex a).2.2.2.2.2 ⟨c1, c2⟩
  · intro h
    have hguard : (has_new_test_file || !has_mixed_before tests_before) = true := by
      rcases h with h | h <;> simp [h]
    intro a h1 h2
    rw [generate_test_report, if_pos hguard] at h1 h2
    have hchar := ruleA_mem_characterization tests_base tests_before tests_after a
    have s1 := hchar.1.mp h1
    have s2 := hchar.2.mp h2
    rw [ruleA_f2p_spec] at s1
    rw [ruleA_p2p_spec] at s2
    tauto
  · simp only [analyzeLists]
    exact ⟨sortedLex_sorted _, sortedLex_sorted _, sortedLex_sorted _, sortedLex_sorted _⟩
  · simp only [analyzeLists]
    by_cases hguard : (has_new_test_file || !has_mixed_before tests_before) = true
    · rw [generate_test_report, if_pos hguard]
      have hA := ruleA_nodup tests_base tests_before tests_after
        (passingTests_nodup tests_after hWF)
      have hp2f : (ruleA tests_base tests_before tests_after).pass_to_fail = [] := by
        simp [ruleA]
      have hf2f : (ruleA tests_base tests_before tests_after).fail_to_fail = [] := by
        simp [ruleA]
      rw [hp2f, hf2f]
      exact ⟨sortedLex_nodup _ hA.1, sortedLex_nodup _ hA.2,
        sortedLex_nodup _ List.nodup_nil, sortedLex_nodup _ List.nodup_nil⟩
    · rw [generate_test_report, if_neg hguard]
      have hB := ruleB_nodup tests_before tests_after
      exact ⟨sortedLex_nodup _ hB.1, sortedLex_nodup _ hB.2.1,
        sortedLex_nodup _ hB.2.2.1, sortedLex_nodup _ hB.2.2.2⟩

theorem c5_disjoint_sorted_nodup_witness :
    WFMap [("T1", Status.PASSED), ("T2", Status.PASSED)] ∧
    ((analyzeLists [("T1", Status.FAILED)] [("T1", Status.PASSED)]
        [("T1", Status.PASSED), ("T2", Status.PASSED)] true).fail_to_pass.Nodup ∧
     (analyzeLists [("T1", Status.FAILED)] [("T1", Status.PASSED)]
        [("T1", Status.PASSED), ("T2", Status.PASSED)] true).pass_to_pass.Nodup ∧
     (analyzeLists [("T1", Status.FAILED)] [("T1", Status.PASSED)]
        [("T1", Status.PASSED), ("T2", Status.PASSED)] true).pass_to_fail.Nodup ∧
     (analyzeLists [("T1", Status.FAILED)] [("T1", Status.PASSED)]
        [("T1", Status.PASSED), ("T2", Status.PASSED)] true).fail_to_fail.Nodup) :=
  ⟨by rw [WFMap, mapKeys]; decide,
   (c5_disjoint_sorted_nodup [("T1", Status.FAILED)] [("T1", Status.PASSED)]
     [("T1", Status.PASSED), ("T2", Status.PASSED)] true
     (by rw [WFMap, mapKeys]; decide)).2.2.2⟩

example : has_unstable_pattern "perf-0x7f8a1e34b000" = true := by decide

example : has_unstable_pattern "test_login_works" = false := by decide

example : has_unstable_pattern "finished in 12.5 ms today" = true := by decide

example : has_unstable_pattern "ts_1699999999999" = true := by decide

example : has_unstable_pattern "id 123e4567-e89b-12d3-a456-426614174000" = true := by decide

example : has_unstable_pattern "run 2024-01-02T03:04:05" = true := by decide

example : has_unstable_pattern "BUILT IN 3S" = true := by decide

example :
    validate_f2p_p2p_result ["T_new"] ["T1"]
      [("T1", .PASSED)] [("T1", .PASSED), ("T_new", .FAILED)]
      [("T1", .PASSED), ("T_new", .PASSED)] none = none := by decide

example :
    validate_f2p_p2p_result [] ["T1"] [] [] [] none = some "empty_f2p" := by decide

example :
    validate_f2p_p2p_result ["perf-0x7f8a1e34b000"] ["T1"]
      [("T1", .PASSED)] [("T1", .PASSED)]
      [("T1", .PASSED), ("perf-0x7f8a1e34b000", .PASSED)] (some "C++") =
      some "unstable_test_name" := by decide

/-- C6: once the two emptiness checks pass, the validator returns
`unstable_test_name` exactly when the language is JavaScript, TypeScript
or C++ (case-insensitive) and some F2P/P2P identifier matches an unstable
pattern; and for a language outside that gate it never returns
`unstable_test_name`, whatever the lists and maps are. -/
theorem c6_unstable_test_name (f2p_tests p2p_tests : List String)
    (tests_base tests_before tests_after : StatusMap) (language : Option String)
    (h1 : f2p_tests ≠ []) (h2 : p2p_tests ≠ []) :
    (validate_f2p_p2p_result f2p_tests p2p_tests tests_base tests_before
        tests_after language = some "unstable_test_name" ↔
      (langGate language = true ∧
        (f2p_tests ++ p2p_tests).any (fun t => has_unstable_pattern t) = true)) ∧
    (∀ lang2 : Option String, langGate lang2 = false →
      ∀ (f2p2 p2p2 : List String) (mb mbf ma : StatusMap),
        validate_f2p_p2p_result f2p2 p2p2 mb mbf ma lang2 ≠
          some "unstable_test_name") := by
  have hne1 : ¬(f2p_tests.isEmpty = true) := by
    simpa [List.isEmpty_iff] using h1
  have hne2 : ¬(p2p_tests.isEmpty = true) := by
    simpa [List.isEmpty_iff] using h2
  constructor
  · rw [validate_f2p_p2p_result, if_neg hne1, if_neg hne2]
    by_cases hg : (langGate language &&
        (f2p_tests ++ p2p_tests).any (fun t => has_unstable_pattern t)) = true
    · rw [if_pos hg]
      rw [Bool.and_eq_true] at hg
      exact ⟨fun _ => hg, fun _ => rfl⟩
    · rw [if_neg hg]
      constructor
      · intro hx
        exfalso
        split_ifs at hx <;> simp_all
      · intro hrhs
        exact absurd (Bool.and_eq_true _ _ ▸ hrhs) hg
  · intro lang2 hl f2p2 p2p2 mb mbf ma hx
    simp only [validate_f2p_p2p_result, hl, Bool.false_and] at hx
    split_ifs at hx <;> simp_all

theorem c6_unstable_test_name_witness :
    ((["perf-0x7f8a1e34b000"] : List String) ≠ [] ∧
     (["T1"] : List String) ≠ []) ∧
    (validate_f2p_p2p_result ["perf-0x7f8a1e34b000"] ["T1"]
        [("T1", Status.PASSED)] [("T1", Status.PASSED)]
        [("T1", Status.PASSED), ("perf-0x7f8a1e34b000", Status.PASSED)]
        (some "C++") = some "unstable_test_name" ↔
      (langGate (some "C++") = true ∧
        (["perf-0x7f8a1e34b000"] ++ ["T1"]).any
          (fun t => has_unstable_pattern t) = true)) :=
  ⟨⟨by decide, by decide⟩,
   (c6_unstable_test_name ["perf-0x7f8a1e34b000"] ["T1"]
     [("T1", Status.PASSED)] [("T1", Status.PASSED)]
     [("T1", Status.PASSED), ("perf-0x7f8a1e34b000", Status.PASSED)]
     (some "C++") (by decide) (by decide)).1⟩

theorem notInAllStages_char (tests_base tests_before tests_after : StatusMap)
    (t : String) (hafter : (mapKeys tests_after).contains t = true) :
    notInAllStages tests_base tests_before tests_after t = true ↔
      ((mapKeys tests_base).contains t = true ∧
       (mapKeys tests_before).contains t = false) := by
  have haf : t ∈ mapKeys tests_after := (contains_iff_mem _ t).mp hafter
  rw [notInAllStages]
  cases hb : (mapKeys tests_base).contains t <;>
    cases hbf : (mapKeys tests_before).contains t <;>
    simp [hb, hbf, hafter, haf]

/-- C3 counterexample: an F2P test (`"a"`) present only in the `after`
map — absent from `base` AND from `before`, hence not "absent only from
base" — is nevertheless accepted: the validator returns `none` rather
than `some "test_not_in_all_stages"`. -/
theorem c3_counterexample :
    (mapKeys [("b", Status.PASSED)]).contains "a" = false ∧
    (mapKeys ([("b", Status.PASSED)] : StatusMap)).contains "a" = false ∧
    (mapKeys [("a", Status.PASSED), ("b", Status.PASSED)]).contains "a" = true ∧
    validate_f2p_p2p_result ["a"] ["b"] [("b", Status.PASSED)]
      [("b", Status.PASSED)] [("a", Status.PASSED), ("b", Status.PASSED)]
      none = none := by decide

/-- C3 amended: once every earlier check passes, the validator returns
`test_not_in_all_stages` exactly when some F2P/P2P test is present in the
`base` map but absent from the `before` map; a test absent from `base` is
always exempt, even when it is also absent from `before`. -/
theorem c3_not_in_all_stages_amended (f2p_tests p2p_tests : List String)
    (tests_base tests_before tests_after : StatusMap) (language : Option String)
    (h1 : f2p_tests ≠ []) (h2 : p2p_tests ≠ [])
    (h3 : (langGate language &&
      (f2p_tests ++ p2p_tests).any (fun t => has_unstable_pattern t)) = false)
    (h4 : (f2p_tests ++ p2p_tests).dedup.length = (f2p_tests ++ p2p_tests).length)
    (h5 : (p2p_tests.any (fun t => (failingTests tests_base).contains t)) = false)
    (h6 : ((f2p_tests ++ p2p_tests).any (fun t =>
      (failingTests tests_after).contains t ||
      !(mapKeys tests_after).contains t)) = false)
    (h7 : (p2p_tests.any (fun t =>
      !(mapKeys tests_base).contains t &&
      !(passingTests tests_before).contains t)) = false) :
    validate_f2p_p2p_result f2p_tests p2p_tests tests_base tests_before
        tests_after language = some "test_not_in_all_stages" ↔
      ∃ t ∈ f2p_tests ++ p2p_tests,
        t ∈ mapKeys tests_base ∧ t ∉ mapKeys tests_before := by
  have hne1 : ¬(f2p_tests.isEmpty = true) := by
    simpa [List.isEmpty_iff] using h1
  have hne2 : ¬(p2p_tests.isEmpty = true) := by
    simpa [List.isEmpty_iff] using h2
  have hafter : ∀ t ∈ f2p_tests ++ p2p_tests,
      (mapKeys tests_after).contains t = true := by
    intro t ht
    cases hcon : (mapKeys tests_after).contains t
    · have : ((f2p_tests ++ p2p_tests).any (fun t =>
          (failingTests tests_after).contains t ||
          !(mapKeys tests_after).contains t)) = true :=
        List.any_eq_true.mpr ⟨t, ht, by rw [hcon]; simp⟩
      rw [h6] at this
      exact Bool.noConfusion this
    · rfl
  rw [validate_f2p_p2p_result, if_neg hne1, if_neg hne2]
  rw [if_neg (fun hx => Bool.noConfusion (h3.symm.trans hx)),
    if_neg (fun hne => hne h4),
    if_neg (fun hx => Bool.noConfusion (h5.symm.trans hx)),
    if_neg (fun hx => Bool.noConfusion (h6.symm.trans hx)),
    if_neg (fun hx => Bool.noConfusion (h7.symm.trans hx))]
  by_cases hany : ((f2p_tests ++ p2p_tests).any (fun t =>
      notInAllStages tests_base tests_before tests_after t)) = true
  · rw [if_pos hany]
    obtain ⟨t, ht, hn⟩ := List.any_eq_true.mp hany
    have hchar := (notInAllStages_char tests_base tests_before tests_after t
      (hafter t ht)).mp hn
    refine ⟨fun _ => ⟨t, ht, ?_, ?_⟩, fun _ => rfl⟩
    · exact (contains_iff_mem _ t).mp hchar.1
    · intro hmem
      rw [(contains_iff_mem _ t).mpr hmem] at hchar
      exact Bool.noConfusion hchar.2
  · rw [if_neg hany]
    constructor
    · intro hx
      exact absurd hx (by decide)
    · rintro ⟨t, ht, hbase, hbefore⟩
      exfalso
      apply hany
      refine List.any_eq_true.mpr ⟨t, ht, ?_⟩
      rw [notInAllStages_char tests_base tests_before tests_after t (hafter t ht)]
      refine ⟨(contains_iff_mem _ t).mpr hbase, ?_⟩
      cases hc : (mapKeys tests_before).contains t
      · rfl
      · exact absurd ((contains_iff_mem _ t).mp hc) hbefore

theorem c3_not_in_all_stages_amended_witness :
    ((["a"] : List String) ≠ [] ∧ (["b"] : List String) ≠ []) ∧
    (validate_f2p_p2p_result ["a"] ["b"]
        [("a", Status.FAILED), ("b", Status.PASSED)] [("b", Status.PASSED)]
        [("a", Status.PASSED), ("b", Status.PASSED)] none =
        some "test_not_in_all_stages" ↔
      ∃ t ∈ ["a"] ++ ["b"],
        t ∈ mapKeys [("a", Status.FAILED), ("b", Status.PASSED)] ∧
        t ∉ mapKeys ([("b", Status.PASSED)] : StatusMap)) :=
  ⟨⟨by decide, by decide⟩,
   c3_not_in_all_stages_amended ["a"] ["b"]
     [("a", Status.FAILED), ("b", Status.PASSED)] [("b", Status.PASSED)]
     [("a", Status.PASSED), ("b", Status.PASSED)] none
     (by decide) (by decide) (by decide) (by decide) (by decide) (by decide)
     (by decide)⟩

theorem foldl_detect_snd {α : Type} (detect : α → Nat) (cs : List α)
    (acc : Option α × Nat) :
    (cs.foldl (detectFold detect) acc).2 =
      cs.foldl (fun m r => max m (detect r)) acc.2 := by
  induction cs generalizing acc with
  | nil => rfl
  | cons x cs ih =>
    rw [List.foldl_cons, List.foldl_cons, ih]
    congr 1
    rw [detectFold]
    by_cases h : detect x > acc.2
    · rw [if_pos h]
      exact (Nat.max_eq_right (Nat.le_of_lt h)).symm
    · rw [if_neg h]
      exact (Nat.max_eq_left (Nat.le_of_not_lt h)).symm

theorem foldl_detect_invariant {α : Type} (detect : α → Nat) (cs : List α)
    (acc : Option α × Nat) :
    cs.foldl (detectFold detect) acc = acc ∨
    ∃ r, (cs.foldl (detectFold detect) acc).1 = some r ∧ r ∈ cs ∧
      detect r = (cs.foldl (detectFold detect) acc).2 := by
  induction cs generalizing acc with
  | nil => exact Or.inl rfl
  | cons x cs ih =>
    rw [List.foldl_cons]
    by_cases h : detect x > acc.2
    · have hstep : detectFold detect acc x = (some x, detect x) := by
        rw [detectFold, if_pos h]
      rw [hstep]
      rcases ih (some x, detect x) with heq | ⟨r, h1, h2, h3⟩
      · rw [heq]
        exact Or.inr ⟨x, rfl, List.mem_cons_self x cs, rfl⟩
      · exact Or.inr ⟨r, h1, List.mem_cons_of_mem x h2, h3⟩
    · have hstep : detectFold detect acc x = acc := by
        rw [detectFold, if_neg h]
      rw [hstep]
      rcases ih acc with heq | ⟨r, h1, h2, h3⟩
      · exact Or.inl heq
      · exact Or.inr ⟨r, h1, List.mem_cons_of_mem x h2, h3⟩

/-- C7: `get_runner` evaluates the detector over the candidate list
(hint-matched runners first, then the remaining runners deduplicated);
any returned runner is a candidate achieving the maximum score, which is
at least 30; when the maximum is below 30 it returns `None`; when the
maximum is at least 30 it does return a candidate achieving that
maximum; and `get_all_detected_runners` contains exactly the runners
with score strictly greater than 0, sorted by score descending. -/
theorem c7_registry {α : Type} [BEq α] (detect : α → Nat)
    (language_runners : List (String × List α)) (all_runners : List α)
    (hint : Option String) :
    (∀ r, get_runner detect language_runners all_runners hint = some r →
      r ∈ candidateRunners (hintRunners language_runners hint) all_runners ∧
      detect r = maxScore detect
        (candidateRunners (hintRunners language_runners hint) all_runners) ∧
      30 ≤ maxScore detect
        (candidateRunners (hintRunners language_runners hint) all_runners)) ∧
    (maxScore detect
        (candidateRunners (hintRunners language_runners hint) all_runners) < 30 →
      get_runner detect language_runners all_runners hint = none) ∧
    (30 ≤ maxScore detect
        (candidateRunners (hintRunners language_runners hint) all_runners) →
      ∃ r, get_runner detect language_runners all_runners hint = some r ∧
        r ∈ candidateRunners (hintRunners language_runners hint) all_runners ∧
        detect r = maxScore detect
          (candidateRunners (hintRunners language_runners hint) all_runners)) ∧
    (∀ (r : α) (s : Nat), (r, s) ∈ get_all_detected_runners detect all_runners ↔
      (r ∈ all_runners ∧ detect r = s ∧ 0 < s)) ∧
    (get_all_detected_runners detect all_runners).Sorted scoreGe := by
  have hsnd : ∀ (cs : List α),
      (cs.foldl (detectFold detect) ((none : Option α), 0)).2 = maxScore detect cs := by
    intro cs
    rw [foldl_detect_snd, maxScore]
  refine ⟨?_, ?_, ?_, ?_, ?_⟩
  · intro r hr
    simp only [get_runner] at hr
    rcases hfold : (candidateRunners (hintRunners language_runners hint)
        all_runners).foldl (detectFold detect) ((none : Option α), 0) with ⟨b, s⟩
    rw [hfold] at hr
    rcases b with _ | r0
    · exact absurd hr (by simp)
    · have hr' : (if 30 ≤ s then some r0 else none) = some r := hr
      by_cases hs : 30 ≤ s
      · rw [if_pos hs] at hr'
        have hr0 : r0 = r := by
          injection hr'
        subst hr0
        rcases foldl_detect_invariant detect
            (candidateRunners (hintRunners language_runners hint) all_runners)
            ((none : Option α), 0) with heq | ⟨r1, h1, h2, h3⟩
        · rw [hfold] at heq
          exact absurd (congrArg Prod.fst heq) (by simp)
        · rw [hfold] at h1 h3
          have hr1 : r1 = r0 := (Option.some.inj h1).symm
          subst hr1
          have hms : s = maxScore detect
              (candidateRunners (hintRunners language_runners hint) all_runners) := by
            rw [← hsnd, hfold]
          refine ⟨h2, ?_, hms ▸ hs⟩
          rw [h3]
          exact hms
      · rw [if_neg hs] at hr'
        exact absurd hr' (by simp)
  · intro hlt
    rcases hfold : (candidateRunners (hintRunners language_runners hint)
        all_runners).foldl (detectFold detect) ((none : Option α), 0) with ⟨b, s⟩
    simp only [get_runner, hfold]
    have hs : s = maxScore detect
        (candidateRunners (hintRunners language_runners hint) all_runners) := by
      rw [← hsnd, hfold]
    rcases b with _ | r0
    · rfl
    · show (if 30 ≤ s then some r0 else none) = none
      rw [if_neg (by rw [hs]; exact Nat.not_le_of_lt hlt)]
  · intro hge
    rcases hfold : (candidateRunners (hintRunners language_runners hint)
        all_runners).foldl (detectFold detect) ((none : Option α), 0) with ⟨b, s⟩
    have hs : s = maxScore detect
        (candidateRunners (hintRunners language_runners hint) all_runners) := by
      rw [← hsnd, hfold]
    rcases foldl_detect_invariant detect
        (candidateRunners (hintRunners language_runners hint) all_runners)
        ((none : Option α), 0) with heq | ⟨r1, h1, h2, h3⟩
    · rw [hfold] at heq
      have hs0 : s = 0 := congrArg Prod.snd heq
      rw [← hs, hs0] at hge
      exact absurd hge (by decide)
    · rw [hfold] at h1 h3
      have hb : b = some r1 := h1
      subst hb
      refine ⟨r1, ?_, h2, ?_⟩
      · simp only [get_runner, hfold]
        show (if 30 ≤ s then some r1 else none) = some r1
        rw [if_pos (by rw [hs]; exact hge)]
      · rw [h3]
        exact hs
  · intro r s
    rw [get_all_detected_runners]
    rw [(List.perm_insertionSort scoreGe _).mem_iff]
    rw [List.mem_filterMap]
    constructor
    · rintro ⟨a, ha, hfa⟩
      by_cases hpos : detect a > 0
      · rw [if_pos hpos] at hfa
        have h1 : a = r := congrArg Prod.fst (Option.some.inj hfa)
        have h2 : detect a = s := congrArg Prod.snd (Option.some.inj hfa)
        subst h1
        exact ⟨ha, h2, h2 ▸ hpos⟩
      · rw [if_neg hpos] at hfa
        exact absurd hfa (by simp)
    · rintro ⟨ha, hds, hpos⟩
      refine ⟨r, ha, ?_⟩
      rw [if_pos (hds ▸ hpos), hds]
  · exact List.sorted_insertionSort scoreGe _

theorem c7_registry_witness :
    (get_runner (fun n => n) [("Python", [50])] [50, 20] (some "Python") =
      some 50 ∧
     (50 ∈ candidateRunners (hintRunners [("Python", [50])] (some "Python"))
        [50, 20] ∧
      (fun n => n) 50 = maxScore (fun n => n)
        (candidateRunners (hintRunners [("Python", [50])] (some "Python"))
          [50, 20]) ∧
      30 ≤ maxScore (fun n => n)
        (candidateRunners (hintRunners [("Python", [50])] (some "Python"))
          [50, 20]))) ∧
    (30 ≤ maxScore (fun n => n)
        (candidateRunners (hintRunners [("Python", [50])] (some "Python"))
          [50, 20]) ∧
     ∃ r, get_runner (fun n => n) [("Python", [50])] [50, 20] (some "Python") =
        some r ∧
      r ∈ candidateRunners (hintRunners [("Python", [50])] (some "Python"))
        [50, 20] ∧
      (fun n => n) r = maxScore (fun n => n)
        (candidateRunners (hintRunners [("Python", [50])] (some "Python"))
          [50, 20])) :=
  ⟨⟨by decide,
    (c7_registry (fun n => n) [("Python", [50])] [50, 20] (some "Python")).1 50
      (by decide)⟩,
   ⟨by decide,
    (c7_registry (fun n => n) [("Python", [50])] [50, 20]
      (some "Python")).2.2.1 (by decide)⟩⟩

/-- C8 counterexample: a `node --test` run whose TAP output parsed one
passing test and no failing test, with exit code 1, carries a non-None
error even though tests were collected — refuting "whenever the parsed
passed or failed lists are non-empty the error field is None". -/
theorem c8_counterexample :
    (nodeTest_run_result 1 ["a"] [] []).passed ≠ [] ∧
    (nodeTest_run_result 1 ["a"] [] []).error ≠ none := by decide

/-- C8 amended: `JestRunner.run_tests` carries a non-None error only when
both structured parses failed, and then zero tests were collected;
`NodeTestRunner.run_tests` carries a non-None error exactly when the exit
code is non-zero and the parsed failed list is empty — a run with a
non-empty passed list, an empty failed list and a non-zero exit still
carries an error. -/
theorem c8_error_amended :
    (∀ (outcome : JestParse) (rc : Int),
      (jest_run_result outcome rc).error ≠ none →
        (jest_run_result outcome rc).passed = [] ∧
        (jest_run_result outcome rc).failed = []) ∧
    (∀ (rc : Int) (passed failed skipped : List String),
      (nodeTest_run_result rc passed failed skipped).error ≠ none ↔
        (rc ≠ 0 ∧ failed = [])) := by
  constructor
  · intro outcome rc h
    cases outcome with
    | fromFile a b c => exact absurd rfl h
    | fromStdout a b c => exact absurd rfl h
    | noParse =>
      cases hrc : (rc != 0) <;> simp [jest_run_result, hrc]
  · intro rc passed failed skipped
    rw [nodeTest_run_result]
    by_cases h : ((rc != 0) && failed.isEmpty) = true
    · rw [if_pos h]
      rw [Bool.and_eq_true] at h
      constructor
      · intro _
        exact ⟨by simpa using h.1, by simpa [List.isEmpty_iff] using h.2⟩
      · intro _ hcon
        exact Option.noConfusion hcon
    · rw [if_neg h]
      constructor
      · intro hcon
        exact absurd rfl hcon
      · rintro ⟨hrc, hf⟩
        exfalso
        apply h
        rw [Bool.and_eq_true]
        exact ⟨by simpa using hrc, by simpa [List.isEmpty_iff] using hf⟩

theorem c8_error_amended_witness :
    ((jest_run_result JestParse.noParse 1).error ≠ none) ∧
    ((jest_run_result JestParse.noParse 1).passed = [] ∧
     (jest_run_result JestParse.noParse 1).failed = []) :=
  ⟨by decide, c8_error_amended.1 JestParse.noParse 1 (by decide)⟩

theorem insertStatus_mem (m : StatusMap) (k : String) (v : Status)
    (p : String × Status) (h : p ∈ insertStatus m k v) :
    p ∈ m ∨ p = (k, v) := by
  rw [insertStatus] at h
  by_cases hc : (mapKeys m).contains k = true
  · rw [if_pos hc] at h
    obtain ⟨q, hq, hfq⟩ := List.mem_map.mp h
    by_cases hk : (q.1 == k) = true
    · rw [if_pos hk] at hfq
      exact Or.inr hfq.symm
    · rw [if_neg hk] at hfq
      exact Or.inl (hfq ▸ hq)
  · rw [if_neg hc] at h
    rcases List.mem_append.mp h with h | h
    · exact Or.inl h
    · exact Or.inr (List.mem_singleton.mp h)

theorem foldl_insert_mem (ts : List String) (m : StatusMap) (pre : String)
    (v : Status) (p : String × Status)
    (h : p ∈ ts.foldl (fun acc t => insertStatus acc (pre ++ t) v) m) :
    p ∈ m ∨ ∃ t ∈ ts, p = (pre ++ t, v) := by
  induction ts generalizing m with
  | nil => exact Or.inl h
  | cons x ts ih =>
    rw [List.foldl_cons] at h
    rcases ih _ h with h1 | ⟨t, ht, hp⟩
    · rcases insertStatus_mem m (pre ++ x) v p h1 with h2 | h2
      · exact Or.inl h2
      · exact Or.inr ⟨x, List.mem_cons_self x ts, h2⟩
    · exact Or.inr ⟨t, List.mem_cons_of_mem x ht, hp⟩

theorem addRunResult_mem (m : StatusMap) (pre : String) (r : TestResultR)
    (p : String × Status) (h : p ∈ addRunResult m pre r) :
    p ∈ m ∨ (∃ t ∈ r.passed, p = (pre ++ t, Status.PASSED)) ∨
      (∃ t ∈ r.failed, p = (pre ++ t, Status.FAILED)) := by
  rw [addRunResult] at h
  rcases foldl_insert_mem r.failed _ pre Status.FAILED p h with h1 | h1
  · rcases foldl_insert_mem r.passed m pre Status.PASSED p h1 with h2 | h2
    · exact Or.inl h2
    · exact Or.inr (Or.inl h2)
  · exact Or.inr (Or.inr h1)

theorem aggregateStage_mem (pkgs : List (String × TestResultR))
    (acc : StatusMap) (p : String × Status)
    (h : p ∈ pkgs.foldl (fun a pr => addRunResult a pr.1 pr.2) acc) :
    p ∈ acc ∨ ∃ pr ∈ pkgs,
      (∃ t ∈ pr.2.passed, p = (pr.1 ++ t, Status.PASSED)) ∨
      (∃ t ∈ pr.2.failed, p = (pr.1 ++ t, Status.FAILED)) := by
  induction pkgs generalizing acc with
  | nil => exact Or.inl h
  | cons x pkgs ih =>
    rw [List.foldl_cons] at h
    rcases ih _ h with h1 | ⟨pr, hpr, hp⟩
    · rcases addRunResult_mem acc x.1 x.2 p h1 with h2 | h2
      · exact Or.inl h2
      · exact Or.inr ⟨x, List.mem_cons_self x pkgs, h2⟩
    · exact Or.inr ⟨pr, List.mem_cons_of_mem x hpr, hp⟩

/-- C10: every entry of an aggregated stage map has status PASSED or
FAILED; every key of the map is the prefixed name of some package's
passed or failed test, so a test only reported as skipped is entirely
absent; and an F2P/P2P test missing from the `after` map is rejected by
the validator with `failed_after_in_f2p_p2p` once the earlier checks
pass. -/
theorem c10_stage_maps_passed_failed_only (pkgs : List (String × TestResultR)) :
    (∀ p ∈ aggregateStage pkgs, p.2 = Status.PASSED ∨ p.2 = Status.FAILED) ∧
    (∀ x ∈ mapKeys (aggregateStage pkgs), ∃ pr ∈ pkgs, ∃ t,
      (t ∈ pr.2.passed ∨ t ∈ pr.2.failed) ∧ x = pr.1 ++ t) ∧
    (∀ pr ∈ pkgs, ∀ t ∈ pr.2.skipped,
      (∀ pr2 ∈ pkgs, ∀ t2, (t2 ∈ pr2.2.passed ∨ t2 ∈ pr2.2.failed) →
        pr.1 ++ t ≠ pr2.1 ++ t2) →
      (pr.1 ++ t) ∉ mapKeys (aggregateStage pkgs)) ∧
    (∀ (f2p_tests p2p_tests : List String)
      (tests_base tests_before tests_after : StatusMap)
      (language : Option String) (t : String),
      f2p_tests ≠ [] → p2p_tests ≠ [] →
      (langGate language && (f2p_tests ++ p2p_tests).any
        (fun u => has_unstable_pattern u)) = false →
      (f2p_tests ++ p2p_tests).dedup.length = (f2p_tests ++ p2p_tests).length →
      (p2p_tests.any (fun u => (failingTests tests_base).contains u)) = false →
      t ∈ f2p_tests ++ p2p_tests → t ∉ mapKeys tests_after →
      validate_f2p_p2p_result f2p_tests p2p_tests tests_base tests_before
        tests_after language = some "failed_after_in_f2p_p2p") := by
  refine ⟨?_, ?_, ?_, ?_⟩
  · intro p hp
    rcases aggregateStage_mem pkgs [] p hp with h | ⟨pr, _, h⟩
    · exact absurd h (List.not_mem_nil p)
    · rcases h with ⟨t, _, rfl⟩ | ⟨t, _, rfl⟩
      · exact Or.inl rfl
      · exact Or.inr rfl
  · intro x hx
    obtain ⟨p, hp, hfst⟩ := List.mem_map.mp hx
    rcases aggregateStage_mem pkgs [] p hp with h | ⟨pr, hpr, h⟩
    · exact absurd h (List.not_mem_nil p)
    · rcases h with ⟨t, ht, rfl⟩ | ⟨t, ht, rfl⟩
      · exact ⟨pr, hpr, t, Or.inl ht, hfst.symm⟩
      · exact ⟨pr, hpr, t, Or.inr ht, hfst.symm⟩
  · intro pr hpr t ht hdistinct hmem
    obtain ⟨p, hp, hfst⟩ := List.mem_map.mp hmem
    rcases aggregateStage_mem pkgs [] p hp with h | ⟨pr2, hpr2, h⟩
    · exact absurd h (List.not_mem_nil p)
    · rcases h with ⟨t2, ht2, rfl⟩ | ⟨t2, ht2, rfl⟩
      · exact hdistinct pr2 hpr2 t2 (Or.inl ht2) hfst.symm
      · exact hdistinct pr2 hpr2 t2 (Or.inr ht2) hfst.symm
  · intro f2p_tests p2p_tests tests_base tests_before tests_after language t
      h1 h2 h3 h4 h5 hmem hnot
    have hne1 : ¬(f2p_tests.isEmpty = true) := by
      simpa [List.isEmpty_iff] using h1
    have hne2 : ¬(p2p_tests.isEmpty = true) := by
      simpa [List.isEmpty_iff] using h2
    rw [validate_f2p_p2p_result, if_neg hne1, if_neg hne2]
    rw [if_neg (fun hx => Bool.noConfusion (h3.symm.trans hx)),
      if_neg (fun hne => hne h4),
      if_neg (fun hx => Bool.noConfusion (h5.symm.trans hx))]
    rw [if_pos]
    refine List.any_eq_true.mpr ⟨t, hmem, ?_⟩
    have hc : (mapKeys tests_after).contains t = false := by
      cases hc : (mapKeys tests_after).contains t
      · rfl
      · exact absurd ((contains_iff_mem _ t).mp hc) hnot
    rw [hc]
    simp

theorem c10_stage_maps_passed_failed_only_witness :
    ((("T1", Status.PASSED) ∈ aggregateStage
        [("", ⟨["T1"], [], ["T_skip"], none⟩)]) ∧
     (("T1", Status.PASSED).2 = Status.PASSED ∨
      ("T1", Status.PASSED).2 = Status.FAILED)) :=
  ⟨by decide,
   (c10_stage_maps_passed_failed_only
     [("", ⟨["T1"], [], ["T_skip"], none⟩)]).1 ("T1", Status.PASSED)
     (by decide)⟩
